import Mathlib

/-!
Shallow embedding of `mujoco/usd/exporter.py` (the `USDExporter` class) and
proofs about its session behaviour.

Conventions of the embedding:
* Python floats that the exporter only compares or stores are modelled as `ℚ`.
* The record objects of `mujoco.usd.objects` / `.lights` / `.camera` are not
  part of the analysed sources; their state is modelled from the spec as
  explicit lists of time samples (see the `Modelled from the spec` comments).
* An `assert` that fails, and an exception, are modelled by `Option`/`Except`
  results (`none` / `.error` = the Python call raises).
* Mutation of `self` is modelled by explicit state passing on `ExporterState`.
-/

namespace MujocoUsd

/-- MuJoCo object-type codes (`mjtObj`) that `exporter.py` distinguishes;
all codes other than `mjOBJ_GEOM` and `mjOBJ_TENDON` behave alike there. -/
inductive MjtObj where
  | geom
  | tendon
  | site
  | cameraObj
  | lightObj
  | unknown
deriving DecidableEq, Repr

/-- MuJoCo geom-type codes (`mjtGeom`); the exporter only tests equality
with `mjGEOM_MESH`. -/
inductive MjtGeom where
  | plane
  | sphere
  | capsule
  | ellipsoid
  | cylinder
  | box
  | mesh
deriving DecidableEq, Repr

/-- A 3-vector of rationals, standing for a numpy float triple. -/
abbrev Vec3 := ℚ × ℚ × ℚ

/-- An RGBA colour; the exporter reads the alpha channel (`rgba[3]`). -/
structure RGBA where
  r : ℚ
  g : ℚ
  b : ℚ
  a : ℚ
deriving DecidableEq, Repr

/-- One renderer geometry instance (`mujoco.MjvGeom`), restricted to the
fields `exporter.py` reads. -/
structure GeomInstance where
  objtype : MjtObj
  objid : Int
  segid : Int
  gtype : MjtGeom
  matid : Int
  pos : Vec3
  mat : List ℚ
  size : Vec3
  rgba : RGBA
deriving DecidableEq, Repr

/-- One renderer light instance, restricted to the fields the exporter reads. -/
structure LightInstance where
  pos : Vec3
  diffuse : Vec3
deriving DecidableEq, Repr

/-- The part of `mujoco.MjModel` that `USDExporter` consults. `id2name`
stands for `mujoco.mj_id2name` (`none`/empty string = unnamed object). -/
structure MjModel where
  offwidth : Nat
  offheight : Nat
  ntex : Nat
  id2name : MjtObj → Int → Option String
  geom_dataid : Int → Int
  mat_texid : Int → List Int
  tex_type : Int → Nat

/-- numpy's default absolute tolerance `1e-8`, as an exact rational. -/
def npAtol : ℚ := mkRat 1 100000000

/-- `np.allclose(v, [0, 0, 0])`: with numpy defaults and second argument
zero this is `|vᵢ| ≤ atol` with `atol = 1e-8`, componentwise (the float
rounding of the tolerance itself is abstracted to the exact rational). -/
def allcloseOrigin (v : Vec3) : Bool :=
  decide (|v.1| ≤ npAtol ∧ |v.2.1| ≤ npAtol ∧ |v.2.2| ≤ npAtol)

/-- `USDExporter._get_geom_name`: base name from `mj_id2name` (falling back
to `"None"`), then the object id, then a category suffix for geoms and
tendon segments. -/
def getGeomName (model : MjModel) (g : GeomInstance) : String :=
  let base :=
    match model.id2name g.objtype g.objid with
    | none => "None"
    | some n => if n = "" then "None" else n
  let withId := base ++ "_id" ++ toString g.objid
  match g.objtype with
  | MjtObj.geom => withId ++ "_geom"
  | MjtObj.tendon => withId ++ "_tendon_segid" ++ toString g.segid
  | _ => withId

/-- The category of exported geometry record `_load_geom` constructs. -/
inductive GeomKind where
  | meshKind
  | tendonKind
  | primitiveKind
deriving DecidableEq, Repr

/-- `shapes_module.mesh_config_generator` output. Modelled from the spec:
the shapes module is not among the analysed sources; the spec describes its
output as a mesh configuration synthesized from a name, a geom type, a size
and a decoupling flag, consumed opaquely by the record constructors. -/
structure MeshConfig where
  name : String
  geom_type : MjtGeom
  size : Vec3
  decouple : Bool
deriving DecidableEq, Repr

/-- One exported geometry record. Modelled from the spec: the classes
`USDMesh` / `USDTendon` / `USDPrimitiveMesh` of `mujoco.usd.objects` are not
among the analysed sources. The spec describes each record as carrying
time-sampled pose, scale and visibility data, updated via
`update(pos, mat, [scale,] visible, frame)` and
`update_visibility(visible, frame)`, and remembering the frame of its last
visible update (`last_visible_frame`, used by `save_scene`). -/
structure USDGeomRef where
  kind : GeomKind
  obj_name : String
  dataid : Option Int
  config : Option MeshConfig
  rgba : RGBA
  textures : List (Option (String × Nat))
  poseSamples : List (Nat × Vec3 × List ℚ)
  scaleSamples : List (Nat × Vec3)
  visibilitySamples : List (Nat × Bool)
  last_visible_frame : Nat
deriving DecidableEq, Repr

/-- Modelled from the spec: a per-frame record update appends one pose and
one visibility time sample (plus one scale sample for tendons) at the given
time-sample index, and refreshes `last_visible_frame` when visible. -/
def USDGeomRef.updateRef (rec : USDGeomRef) (pos : Vec3) (mat : List ℚ)
    (scale : Option Vec3) (visible : Bool) (frame : Nat) : USDGeomRef :=
  { rec with
    poseSamples := rec.poseSamples ++ [(frame, pos, mat)]
    scaleSamples :=
      match scale with
      | some sc => rec.scaleSamples ++ [(frame, sc)]
      | none => rec.scaleSamples
    visibilitySamples := rec.visibilitySamples ++ [(frame, visible)]
    last_visible_frame := if visible then frame else rec.last_visible_frame }

/-- Modelled from the spec: `update_visibility` appends a single visibility
time sample without touching anything else. -/
def USDGeomRef.updVisibility (rec : USDGeomRef) (visible : Bool) (frame : Nat) :
    USDGeomRef :=
  { rec with visibilitySamples := rec.visibilitySamples ++ [(frame, visible)] }

/-- The two light-record classes of `mujoco.usd.lights`. -/
inductive LightKind where
  | sphereKind
  | domeKind
deriving DecidableEq, Repr

/-- One `update` call recorded on a light. A dome-light update carries no
time sample (`frame = none`) and no position. -/
structure LightSample where
  pos : Option Vec3
  intensity : Int
  color : Vec3
  frame : Option Nat
deriving DecidableEq, Repr

/-- One exported light record. Modelled from the spec: `USDSphereLight` /
`USDDomeLight` of `mujoco.usd.lights` are not among the analysed sources;
the spec describes them as stage prims receiving position / intensity /
colour updates at time samples. -/
structure USDLightRef where
  kind : LightKind
  obj_name : String
  radius : ℚ
  samples : List LightSample
deriving DecidableEq, Repr

/-- One exported camera record (`USDCamera` of `mujoco.usd.camera`).
Modelled from the spec: a stage prim receiving position + orientation
updates at time samples; the orientation is stored as three columns. -/
structure USDCameraRef where
  obj_name : String
  samples : List (Nat × Vec3 × (Vec3 × Vec3 × Vec3))
deriving Repr

/-- The USD stage state the exporter manipulates through the `pxr` API:
time codes set by `_initialize_usd_stage` / `save_scene`, and the prims
created by `add_light` / `add_camera` directly on the stage (per-frame
records are held in the exporter's own lists below). -/
structure Stage where
  startTimeCode : Nat
  endTimeCode : Nat
  timeCodesPerSecond : ℚ
  upAxisZ : Bool
  defaultPrim : String
  adhocLights : List USDLightRef
  adhocCameras : List USDCameraRef
deriving Repr

/-- A fresh in-memory stage as `_initialize_usd_stage` sets it up: start
time code 0, 60 time codes per second, z up, `/World` default prim. -/
def freshStage : Stage :=
  { startTimeCode := 0
    endTimeCode := 0
    timeCodesPerSecond := 60
    upAxisZ := true
    defaultPrim := "/World"
    adhocLights := []
    adhocCameras := [] }

/-- The mutable state of a `USDExporter` instance. `stage_inits` counts the
calls to `_initialize_usd_stage` (each call creates a brand-new stage). -/
structure ExporterState where
  model : MjModel
  height : Nat
  width : Nat
  max_geom : Nat
  output_directory_name : String
  output_directory_root : String
  light_intensity : Int
  camera_names : Option (List String)
  frame_count : Nat
  updates : Nat
  geom_names : List String
  geom_refs : List (String × USDGeomRef)
  usd_lights : List (Option USDLightRef)
  usd_cameras : List USDCameraRef
  stage : Stage
  stage_inits : Nat
  texture_files : List String

/-- `_load_textures` records one relative path per model texture
(`../assets/texture_<i>.png`, `os.path.relpath` of the assets directory
from the frames directory being `../assets`). -/
def textureFiles (model : MjModel) : List String :=
  (List.range model.ntex).map
    (fun i => "../assets/texture_" ++ toString i ++ ".png")

/-- `_initialize_usd_stage`: replaces the stage by a fresh one. -/
def initUsdStage (s : ExporterState) : ExporterState :=
  { s with stage := freshStage, stage_inits := s.stage_inits + 1 }

/-- `USDExporter.__init__` after the dimension validation: counters zero,
empty record collections, a fresh stage, extracted texture paths. -/
def initState (model : MjModel) (height width max_geom : Nat)
    (odname odroot : String) (light_intensity : Int)
    (camera_names : Option (List String)) : ExporterState :=
  { model := model
    height := height
    width := width
    max_geom := max_geom
    output_directory_name := odname
    output_directory_root := odroot
    light_intensity := light_intensity
    camera_names := camera_names
    frame_count := 0
    updates := 0
    geom_names := []
    geom_refs := []
    usd_lights := []
    usd_cameras := []
    stage := freshStage
    stage_inits := 1
    texture_files := textureFiles model }

/-- `USDExporter.__init__`: the requested image dimensions are validated
against the model's offscreen framebuffer (width first, then height);
a dimension that exceeds the buffer raises `ValueError`. -/
def mkExporter (model : MjModel) (height width max_geom : Nat)
    (odname odroot : String) (light_intensity : Int)
    (camera_names : Option (List String)) : Except String ExporterState :=
  if model.offwidth < width then
    Except.error "ValueError: image width exceeds framebuffer width"
  else if model.offheight < height then
    Except.error "ValueError: image height exceeds framebuffer height"
  else
    Except.ok
      (initState model height width max_geom odname odroot light_intensity
        camera_names)

/-- Lookup in the `geom_refs` dictionary. -/
def getRef : List (String × USDGeomRef) → String → Option USDGeomRef
  | [], _ => none
  | (k, v) :: rest, n => if k = n then some v else getRef rest n

/-- Write-through to the `geom_refs` dictionary (`self.geom_refs[name] = r`). -/
def setRef : List (String × USDGeomRef) → String → USDGeomRef →
    List (String × USDGeomRef)
  | [], n, r => [(n, r)]
  | (k, v) :: rest, n, r =>
    if k = n then (n, r) :: rest else (k, v) :: setRef rest n r

/-- The texture list `_load_geom` resolves through
`self.model.mat_texid[geom.matid]` (absent material ⇒ empty list). -/
def geomTextures (s : ExporterState) (g : GeomInstance) :
    List (Option (String × Nat)) :=
  if g.matid = -1 then []
  else
    (s.model.mat_texid g.matid).map
      (fun i =>
        if i ≠ -1 then
          some (s.texture_files.getD i.toNat "", s.model.tex_type i)
        else none)

/-- The record `_load_geom` constructs for one geometry instance, by
category: `USDMesh` for mesh geoms, `USDTendon` for tendon segments
(decoupled unit-size mesh configuration), `USDPrimitiveMesh` otherwise. -/
def newGeomRef (s : ExporterState) (g : GeomInstance) : USDGeomRef :=
  let geom_name := getGeomName s.model g
  let textures := geomTextures s g
  if g.gtype = MjtGeom.mesh then
        { kind := GeomKind.meshKind
          obj_name := geom_name
          dataid := some (s.model.geom_dataid g.objid)
          config := none
          rgba := g.rgba
          textures := textures
          poseSamples := []
          scaleSamples := []
          visibilitySamples := []
          last_visible_frame := 0 }
      else if g.objtype = MjtObj.tendon then
        { kind := GeomKind.tendonKind
          obj_name := geom_name
          dataid := none
          config := some
            { name := geom_name
              geom_type := g.gtype
              size := (1, 1, 1)
              decouple := true }
          rgba := g.rgba
          textures := textures
          poseSamples := []
          scaleSamples := []
          visibilitySamples := []
          last_visible_frame := 0 }
      else
        { kind := GeomKind.primitiveKind
          obj_name := geom_name
          dataid := none
          config := some
            { name := geom_name
              geom_type := g.gtype
              size := g.size
              decouple := false }
          rgba := g.rgba
          textures := textures
          poseSamples := []
          scaleSamples := []
          visibilitySamples := []
          last_visible_frame := 0 }

/-- `USDExporter._load_geom`: derive the name, `assert` it is unseen
(`none` = the assertion fails), build the record by category and register
it in `geom_names` / `geom_refs`. -/
def load_geom (s : ExporterState) (g : GeomInstance) : Option ExporterState :=
  let geom_name := getGeomName s.model g
  if geom_name ∈ s.geom_names then none
  else
    some
      { s with
        geom_names := s.geom_names ++ [geom_name]
        geom_refs := setRef s.geom_refs geom_name (newGeomRef s g) }

/-- One iteration of the loop in `USDExporter._update_geoms`: load the geom
if its derived name is unseen, then update the record at time sample
`self.updates` (tendons additionally carry their scale). A missing record
for a registered name would be a Python `KeyError`, modelled as `none`. -/
def update_geom_one (s : ExporterState) (g : GeomInstance) :
    Option ExporterState :=
  let geom_name := getGeomName s.model g
  let loaded := if geom_name ∈ s.geom_names then some s else load_geom s g
  match loaded with
  | none => none
  | some s1 =>
    match getRef s1.geom_refs geom_name with
    | none => none
    | some rec1 =>
      let scale := if g.objtype = MjtObj.tendon then some g.size else none
      let rec2 := rec1.updateRef g.pos g.mat scale (decide (0 < g.rgba.a))
        s1.updates
      some { s1 with geom_refs := setRef s1.geom_refs geom_name rec2 }

/-- `USDExporter._update_geoms`: the loop over `self.scene.geoms`. -/
def update_geoms (s : ExporterState) : List GeomInstance →
    Option ExporterState
  | [] => some s
  | g :: gs =>
    match update_geom_one s g with
    | none => none
    | some s1 => update_geoms s1 gs

/-- `USDExporter._load_lights`: append, for each snapshot light, a sphere
light named by its index — or `None` when the light sits (approximately) at
the world origin. -/
def lightsToRefs (lights : List LightInstance) : List (Option USDLightRef) :=
  lights.enum.map
    (fun p =>
      if allcloseOrigin p.2.pos then none
      else
        some
          { kind := LightKind.sphereKind
            obj_name := toString p.1
            radius := 1
            samples := [] })

/-- `USDExporter._load_lights` as a state transformer (the Python loop
appends to the existing `self.usd_lights`). -/
def load_lights (s : ExporterState) (lights : List LightInstance) :
    ExporterState :=
  { s with usd_lights := s.usd_lights ++ lightsToRefs lights }

/-- One iteration of `USDExporter._update_lights`: skip origin-positioned
lights and `None` slots, otherwise append an update at time sample `t`. -/
def updLightOne (intensity : Int) (t : Nat) (l : LightInstance)
    (slot : Option USDLightRef) : Option USDLightRef :=
  if allcloseOrigin l.pos then slot
  else
    match slot with
    | none => none
    | some rec1 =>
      some
        { rec1 with
          samples := rec1.samples ++
            [{ pos := some l.pos
               intensity := intensity
               color := l.diffuse
               frame := some t }] }

/-- `USDExporter._update_lights`: the loop runs over the snapshot's light
indices, skipping indices beyond `len(self.usd_lights)`; slots beyond the
snapshot's light count are untouched. -/
def update_lights (s : ExporterState) (lights : List LightInstance) :
    ExporterState :=
  { s with
    usd_lights :=
      List.zipWith (updLightOne s.light_intensity s.updates) lights
        s.usd_lights ++ s.usd_lights.drop lights.length }

/-- `USDExporter._load_cameras`: one camera record per user-supplied name;
a `camera_names` of `None` contributes nothing (rendered as `getD []`). -/
def load_cameras (s : ExporterState) : ExporterState :=
  { s with
    usd_cameras :=
      s.usd_cameras ++
        (s.camera_names.getD []).map (fun n => { obj_name := n, samples := [] }) }

/-- Cross product of two rational 3-vectors (`np.cross`). -/
def crossQ (a b : Vec3) : Vec3 :=
  (a.2.1 * b.2.2 - a.2.2 * b.2.1,
   a.2.2 * b.1 - a.1 * b.2.2,
   a.1 * b.2.1 - a.2.1 * b.1)

/-- Componentwise negation (`-forward`). -/
def negV (v : Vec3) : Vec3 := (-v.1, -v.2.1, -v.2.2)

/-- The averaged stereo camera pose the renderer reports for one named
camera after the per-camera re-snapshot: position, forward, up. This data
comes from the external renderer, so it is part of the frame input. -/
structure CamPose where
  pos : Vec3
  forward : Vec3
  up : Vec3

/-- One `update_scene` input: the renderer snapshot recomputed for this
call (geometry and light arrays) and the per-camera averaged poses. -/
structure FrameInput where
  geoms : List GeomInstance
  lights : List LightInstance
  camPose : Nat → CamPose

/-- `USDExporter._update_cameras`: for each camera, re-snapshot the
renderer for that camera, read the averaged stereo pose, build the
orientation matrix with columns `[right, up, -forward]`, `right = forward ×
up`, and update the record at time sample `self.updates`. -/
def update_cameras (s : ExporterState) (f : FrameInput) : ExporterState :=
  { s with
    usd_cameras :=
      s.usd_cameras.enum.map
        (fun p =>
          let pose := f.camPose p.1
          let right := crossQ pose.forward pose.up
          { p.2 with
            samples := p.2.samples ++
              [(s.updates, pose.pos, (right, pose.up, negV pose.forward))] }) }

/-- `USDExporter.update_scene`: bump `frame_count`, re-snapshot the
renderer, on the very first update re-create the stage and populate the
light and camera lists, update geoms / lights / cameras, and finally bump
`updates`. -/
def update_scene (f : FrameInput) (s : ExporterState) : Option ExporterState :=
  let s1 := { s with frame_count := s.frame_count + 1 }
  let s2 :=
    if s1.updates = 0 then load_cameras (load_lights (initUsdStage s1) f.lights)
    else s1
  match update_geoms s2 f.geoms with
  | none => none
  | some s3 =>
    let s4 := update_lights s3 f.lights
    let s5 := update_cameras s4 f
    some { s5 with updates := s5.updates + 1 }

/-- The filetype tags `save_scene` accepts. -/
def allowedFiletypes : List String := ["usd", "usda", "usdc"]

/-- `USDExporter.save_scene`: `assert` the filetype tag (`none` = the
assertion fails, before anything else happens), set the stage's end time
code to `frame_count`, append the final invisible sample to every geometry
record at `last_visible_frame + 1`, and export to
`<root>/<name>/frames/frame_<frame_count>.<filetype>` (the returned
string). -/
def save_scene (s : ExporterState) (filetype : String) :
    Option (ExporterState × String) :=
  if filetype ∈ allowedFiletypes then
    let s1 := { s with stage := { s.stage with endTimeCode := s.frame_count } }
    let s2 :=
      { s1 with
        geom_refs :=
          s1.geom_refs.map
            (fun p => (p.1, p.2.updVisibility false (p.2.last_visible_frame + 1))) }
    some
      (s2,
        s.output_directory_root ++ "/" ++ s.output_directory_name ++
          "/frames/frame_" ++ toString s.frame_count ++ "." ++ filetype)
  else none

/-- `USDExporter.add_light`: a `"sphere"` light is created on the stage and
given one update at time sample 0; a `"dome"` light is created and given
one update with no time sample; any other tag does nothing. The created
record is not appended to `self.usd_lights`. -/
def add_light (s : ExporterState) (pos : Vec3) (intensity : Int) (radius : ℚ)
    (color : Vec3) (obj_name : String) (light_type : String) : ExporterState :=
  if light_type = "sphere" then
    let newLight : USDLightRef :=
      { kind := LightKind.sphereKind
        obj_name := obj_name
        radius := radius
        samples :=
          [{ pos := some pos, intensity := intensity, color := color,
             frame := some 0 }] }
    { s with stage := { s.stage with adhocLights := s.stage.adhocLights ++ [newLight] } }
  else if light_type = "dome" then
    let newLight : USDLightRef :=
      { kind := LightKind.domeKind
        obj_name := obj_name
        radius := 1
        samples :=
          [{ pos := none, intensity := intensity, color := color,
             frame := none }] }
    { s with stage := { s.stage with adhocLights := s.stage.adhocLights ++ [newLight] } }
  else s

/-- Run a list of `update_scene` calls in order. -/
def runUpdates : List FrameInput → ExporterState → Option ExporterState
  | [], s => some s
  | f :: fs, s =>
    match update_scene f s with
    | none => none
    | some s1 => runUpdates fs s1

/-- A session operation: one `update_scene` call or one `save_scene` call. -/
inductive Op where
  | upd (f : FrameInput)
  | save (filetype : String)

/-- Run a list of session operations; a failed assertion aborts the run. -/
def runOps : List Op → ExporterState → Option ExporterState
  | [], s => some s
  | Op.upd f :: ops, s =>
    match update_scene f s with
    | none => none
    | some s1 => runOps ops s1
  | Op.save ft :: ops, s =>
    match save_scene s ft with
    | none => none
    | some p => runOps ops p.1

/-! ### Dictionary lemmas -/

theorem getRef_setRef (m : List (String × USDGeomRef)) (k n : String)
    (v : USDGeomRef) :
    getRef (setRef m k v) n = if k = n then some v else getRef m n := by
  induction m with
  | nil =>
    by_cases h : k = n <;> simp [setRef, getRef, h]
  | cons p rest ih =>
    obtain ⟨a, b⟩ := p
    by_cases hak : a = k
    · subst hak
      by_cases hn : a = n <;> simp [setRef, getRef, hn]
    · by_cases hn : a = n
      · subst hn
        have hk : ¬ k = a := fun hh => hak hh.symm
        simp [setRef, getRef, hak, hk]
      · simp [setRef, getRef, hak, hn, ih]

theorem getRef_eq_none_iff (m : List (String × USDGeomRef)) (k : String) :
    getRef m k = none ↔ k ∉ m.map Prod.fst := by
  induction m with
  | nil => simp [getRef]
  | cons p rest ih =>
    obtain ⟨a, b⟩ := p
    by_cases h : a = k
    · subst h
      simp [getRef]
    · have hka : k = a ↔ False := ⟨fun hh => h hh.symm, False.elim⟩
      simp [getRef, h, ih, hka]

theorem getRef_isSome_iff (m : List (String × USDGeomRef)) (k : String) :
    (getRef m k).isSome = true ↔ k ∈ m.map Prod.fst := by
  rcases hk : getRef m k with _ | v
  · rw [getRef_eq_none_iff] at hk
    simp [hk]
  · have : ¬ getRef m k = none := by simp [hk]
    rw [getRef_eq_none_iff] at this
    simp [Decidable.not_not.mp this]

theorem setRef_of_not_mem (m : List (String × USDGeomRef)) (k : String)
    (v : USDGeomRef) (h : k ∉ m.map Prod.fst) :
    setRef m k v = m ++ [(k, v)] := by
  induction m with
  | nil => simp [setRef]
  | cons p rest ih =>
    obtain ⟨a, b⟩ := p
    simp only [List.map_cons, List.mem_cons] at h
    push_neg at h
    have hak : ¬ a = k := fun hh => h.1 hh.symm
    simp [setRef, hak, ih h.2]

theorem keys_setRef_of_mem (m : List (String × USDGeomRef)) (k : String)
    (v : USDGeomRef) (h : k ∈ m.map Prod.fst) :
    (setRef m k v).map Prod.fst = m.map Prod.fst := by
  induction m with
  | nil => simp at h
  | cons p rest ih =>
    obtain ⟨a, b⟩ := p
    by_cases hak : a = k
    · subst hak
      simp [setRef]
    · simp only [List.map_cons, List.mem_cons] at h
      rcases h with h | h
      · exact absurd h.symm hak
      · simp [setRef, hak, ih h]

/-! ### The geom-dictionary well-formedness invariant -/

/-- `self.geom_names` and the keys of `self.geom_refs` are kept in sync by
`_load_geom`; this is the invariant all reachable exporter states satisfy. -/
def WF (s : ExporterState) : Prop :=
  s.geom_names = s.geom_refs.map Prod.fst

theorem WF_initState (model : MjModel) (height width max_geom : Nat)
    (odname odroot : String) (li : Int) (cn : Option (List String)) :
    WF (initState model height width max_geom odname odroot li cn) := by
  simp [WF, initState]

/-! ### Step lemmas for the geometry loop -/

theorem getRef_map (m : List (String × USDGeomRef)) (f : USDGeomRef → USDGeomRef)
    (n : String) :
    getRef (m.map (fun p => (p.1, f p.2))) n = (getRef m n).map f := by
  induction m with
  | nil => simp [getRef]
  | cons p rest ih =>
    obtain ⟨a, b⟩ := p
    by_cases h : a = n <;> simp [getRef, h, ih]

/-- The fields of the exporter state that the geometry loop never writes. -/
def NonGeomEq (s t : ExporterState) : Prop :=
  t.model = s.model ∧ t.updates = s.updates ∧ t.frame_count = s.frame_count ∧
  t.usd_lights = s.usd_lights ∧ t.usd_cameras = s.usd_cameras ∧
  t.stage = s.stage ∧ t.stage_inits = s.stage_inits ∧
  t.camera_names = s.camera_names ∧ t.light_intensity = s.light_intensity ∧
  t.texture_files = s.texture_files ∧
  t.output_directory_name = s.output_directory_name ∧
  t.output_directory_root = s.output_directory_root

theorem nonGeomEq_refl (s : ExporterState) : NonGeomEq s s := by
  simp [NonGeomEq]

theorem nonGeomEq_trans {s t u : ExporterState} (h1 : NonGeomEq s t)
    (h2 : NonGeomEq t u) : NonGeomEq s u := by
  obtain ⟨a1, a2, a3, a4, a5, a6, a7, a8, a9, a10, a11, a12⟩ := h1
  obtain ⟨b1, b2, b3, b4, b5, b6, b7, b8, b9, b10, b11, b12⟩ := h2
  exact ⟨b1.trans a1, b2.trans a2, b3.trans a3, b4.trans a4, b5.trans a5,
    b6.trans a6, b7.trans a7, b8.trans a8, b9.trans a9, b10.trans a10,
    b11.trans a11, b12.trans a12⟩

/-- The time-sampled update `_update_geoms` applies to one instance's record. -/
def frameUpdate (g : GeomInstance) (t : Nat) (rec1 : USDGeomRef) : USDGeomRef :=
  rec1.updateRef g.pos g.mat
    (if g.objtype = MjtObj.tendon then some g.size else none)
    (decide (0 < g.rgba.a)) t

theorem update_geom_one_of_mem {s : ExporterState} {g : GeomInstance}
    {r : USDGeomRef} (hmem : getGeomName s.model g ∈ s.geom_names)
    (hr : getRef s.geom_refs (getGeomName s.model g) = some r) :
    update_geom_one s g = some
      { s with
        geom_refs := setRef s.geom_refs (getGeomName s.model g)
          (frameUpdate g s.updates r) } := by
  simp [update_geom_one, hmem, hr, frameUpdate]

theorem update_geom_one_of_not_mem {s : ExporterState} {g : GeomInstance}
    (hmem : getGeomName s.model g ∉ s.geom_names) :
    update_geom_one s g = some
      { s with
        geom_names := s.geom_names ++ [getGeomName s.model g]
        geom_refs :=
          setRef (setRef s.geom_refs (getGeomName s.model g) (newGeomRef s g))
            (getGeomName s.model g)
            (frameUpdate g s.updates (newGeomRef s g)) } := by
  simp [update_geom_one, load_geom, hmem, getRef_setRef, frameUpdate]

theorem update_geom_one_spec (s : ExporterState) (g : GeomInstance)
    (hWF : WF s) :
    ∃ t, update_geom_one s g = some t ∧ WF t ∧ NonGeomEq s t ∧
      (∀ n, n ∈ s.geom_names → n ∈ t.geom_names) ∧
      getGeomName s.model g ∈ t.geom_names := by
  by_cases hmem : getGeomName s.model g ∈ s.geom_names
  · have hkeys : getGeomName s.model g ∈ s.geom_refs.map Prod.fst := by
      rw [← hWF]; exact hmem
    have hsome := (getRef_isSome_iff s.geom_refs _).mpr hkeys
    rcases hr : getRef s.geom_refs (getGeomName s.model g) with _ | r
    · rw [hr] at hsome; simp at hsome
    · refine ⟨_, update_geom_one_of_mem hmem hr, ?_, ?_, ?_, ?_⟩
      · unfold WF
        simp only
        rw [keys_setRef_of_mem _ _ _ hkeys]
        exact hWF
      · simp [NonGeomEq]
      · intro n hn; exact hn
      · exact hmem
  · refine ⟨_, update_geom_one_of_not_mem hmem, ?_, ?_, ?_, ?_⟩
    · have hnk : getGeomName s.model g ∉ s.geom_refs.map Prod.fst := by
        rw [← hWF]; exact hmem
      unfold WF
      simp only
      rw [setRef_of_not_mem _ _ _ hnk, keys_setRef_of_mem]
      · simp only [List.map_append, List.map_cons, List.map_nil]
        rw [show s.geom_names = s.geom_refs.map Prod.fst from hWF]
      · simp
    · simp [NonGeomEq]
    · intro n hn; simp [hn]
    · simp

theorem update_geoms_spec (gs : List GeomInstance) :
    ∀ s : ExporterState, WF s →
    ∃ t, update_geoms s gs = some t ∧ WF t ∧ NonGeomEq s t ∧
      (∀ n, n ∈ s.geom_names → n ∈ t.geom_names) := by
  induction gs with
  | nil =>
    intro s hWF
    exact ⟨s, rfl, hWF, nonGeomEq_refl s, fun n hn => hn⟩
  | cons g gs ih =>
    intro s hWF
    obtain ⟨s1, h1, hWF1, hNG1, hmono1, _⟩ := update_geom_one_spec s g hWF
    obtain ⟨s2, h2, hWF2, hNG2, hmono2⟩ := ih s1 hWF1
    refine ⟨s2, ?_, hWF2, nonGeomEq_trans hNG1 hNG2,
      fun n hn => hmono2 n (hmono1 n hn)⟩
    simp [update_geoms, h1, h2]

/-! ### Step lemmas for `update_scene` -/

theorem update_lights_usd_length (x : ExporterState) (ls : List LightInstance) :
    (update_lights x ls).usd_lights.length = x.usd_lights.length := by
  simp [update_lights]
  omega

theorem lightsToRefs_length (ls : List LightInstance) :
    (lightsToRefs ls).length = ls.length := by
  simp [lightsToRefs]

theorem update_scene_spec (f : FrameInput) (s : ExporterState) (hWF : WF s) :
    ∃ t, update_scene f s = some t ∧ WF t ∧
      t.updates = s.updates + 1 ∧ t.frame_count = s.frame_count + 1 ∧
      t.model = s.model ∧ t.camera_names = s.camera_names ∧
      t.light_intensity = s.light_intensity ∧
      t.texture_files = s.texture_files ∧
      t.output_directory_name = s.output_directory_name ∧
      t.output_directory_root = s.output_directory_root ∧
      t.stage = (if s.updates = 0 then freshStage else s.stage) ∧
      t.stage_inits =
        (if s.updates = 0 then s.stage_inits + 1 else s.stage_inits) ∧
      t.usd_lights.length =
        (if s.updates = 0 then s.usd_lights.length + f.lights.length
         else s.usd_lights.length) ∧
      t.usd_cameras.length =
        (if s.updates = 0 then
          s.usd_cameras.length + (s.camera_names.getD []).length
         else s.usd_cameras.length) ∧
      (∀ n, n ∈ s.geom_names → n ∈ t.geom_names) := by
  by_cases hu : s.updates = 0
  · obtain ⟨s3, h3, hWF3, hNG3, hmono3⟩ :=
      update_geoms_spec f.geoms
        { s with
          frame_count := s.frame_count + 1
          stage := freshStage
          stage_inits := s.stage_inits + 1
          usd_lights := s.usd_lights ++ lightsToRefs f.lights
          usd_cameras :=
            s.usd_cameras ++
              (s.camera_names.getD []).map
                (fun n => { obj_name := n, samples := [] }) }
        hWF
    obtain ⟨hm, hupd, hfc, hul, huc, hst, hsi, hcn, hli, htf, hodn, hodr⟩ := hNG3
    rw [hu] at h3
    refine ⟨{ update_cameras (update_lights s3 f.lights) f with
        updates := (update_cameras (update_lights s3 f.lights) f).updates + 1 },
      ?_, ?_, ?_, ?_, ?_, ?_, ?_, ?_, ?_, ?_, ?_, ?_, ?_, ?_, ?_⟩
    · simp [update_scene, hu, load_cameras, load_lights, initUsdStage, h3]
    · unfold WF at hWF3 ⊢
      simpa [update_cameras, update_lights] using hWF3
    · simp [update_cameras, update_lights, hupd]
    · simp [update_cameras, update_lights, hfc]
    · simp [update_cameras, update_lights, hm]
    · simp [update_cameras, update_lights, hcn]
    · simp [update_cameras, update_lights, hli]
    · simp [update_cameras, update_lights, htf]
    · simp [update_cameras, update_lights, hodn]
    · simp [update_cameras, update_lights, hodr]
    · simp [update_cameras, update_lights, hst, hu]
    · simp [update_cameras, update_lights, hsi, hu]
    · have hlen := update_lights_usd_length s3 f.lights
      simp only [update_cameras]
      simp only [hlen, hul, hu, if_pos]
      simp [lightsToRefs_length]
    · simp only [update_cameras, update_lights]
      simp [huc, hu]
    · intro n hn
      have := hmono3 n hn
      simpa [update_cameras, update_lights] using this
  · obtain ⟨s3, h3, hWF3, hNG3, hmono3⟩ :=
      update_geoms_spec f.geoms { s with frame_count := s.frame_count + 1 } hWF
    obtain ⟨hm, hupd, hfc, hul, huc, hst, hsi, hcn, hli, htf, hodn, hodr⟩ := hNG3
    refine ⟨{ update_cameras (update_lights s3 f.lights) f with
        updates := (update_cameras (update_lights s3 f.lights) f).updates + 1 },
      ?_, ?_, ?_, ?_, ?_, ?_, ?_, ?_, ?_, ?_, ?_, ?_, ?_, ?_, ?_⟩
    · simp [update_scene, hu, h3]
    · unfold WF at hWF3 ⊢
      simpa [update_cameras, update_lights] using hWF3
    · simp [update_cameras, update_lights, hupd]
    · simp [update_cameras, update_lights, hfc]
    · simp [update_cameras, update_lights, hm]
    · simp [update_cameras, update_lights, hcn]
    · simp [update_cameras, update_lights, hli]
    · simp [update_cameras, update_lights, htf]
    · simp [update_cameras, update_lights, hodn]
    · simp [update_cameras, update_lights, hodr]
    · simp [update_cameras, update_lights, hst, hu]
    · simp [update_cameras, update_lights, hsi, hu]
    · have hlen := update_lights_usd_length s3 f.lights
      simp only [update_cameras]
      simp only [hlen, hul, hu, if_neg]
      simp
    · simp only [update_cameras, update_lights]
      simp [huc, hu]
    · intro n hn
      have := hmono3 n hn
      simpa [update_cameras, update_lights] using this

theorem runUpdates_spec (inputs : List FrameInput) :
    ∀ s : ExporterState, WF s →
    ∃ t, runUpdates inputs s = some t ∧ WF t ∧
      t.updates = s.updates + inputs.length ∧
      t.frame_count = s.frame_count + inputs.length ∧
      t.model = s.model ∧ t.camera_names = s.camera_names ∧
      t.light_intensity = s.light_intensity ∧
      t.texture_files = s.texture_files ∧
      t.output_directory_name = s.output_directory_name ∧
      t.output_directory_root = s.output_directory_root ∧
      (inputs = [] → t = s) ∧
      (inputs ≠ [] →
        t.stage = (if s.updates = 0 then freshStage else s.stage) ∧
        t.stage_inits =
          (if s.updates = 0 then s.stage_inits + 1 else s.stage_inits)) ∧
      (∀ f fs, inputs = f :: fs →
        t.usd_lights.length =
          (if s.updates = 0 then s.usd_lights.length + f.lights.length
           else s.usd_lights.length) ∧
        t.usd_cameras.length =
          (if s.updates = 0 then
            s.usd_cameras.length + (s.camera_names.getD []).length
           else s.usd_cameras.length)) ∧
      (∀ n, n ∈ s.geom_names → n ∈ t.geom_names) := by
  induction inputs with
  | nil =>
    intro s hWF
    exact ⟨s, rfl, hWF, by simp, by simp, rfl, rfl, rfl, rfl, rfl, rfl,
      fun _ => rfl, fun h => absurd rfl h, fun f fs h => by simp at h,
      fun n hn => hn⟩
  | cons f fs ih =>
    intro s hWF
    obtain ⟨s1, h1, hWF1, hupd1, hfc1, hm1, hcn1, hli1, htf1, hodn1, hodr1,
      hst1, hsi1, hll1, hcl1, hmono1⟩ := update_scene_spec f s hWF
    obtain ⟨t, ht, hWFt, hupdt, hfct, hmt, hcnt, hlit, htft, hodnt, hodrt,
      hnil, hcons, hlent, hmonot⟩ := ih s1 hWF1
    have hne1 : s1.updates ≠ 0 := by omega
    have hts : t.usd_lights.length = s1.usd_lights.length ∧
        t.usd_cameras.length = s1.usd_cameras.length ∧
        t.stage = s1.stage ∧ t.stage_inits = s1.stage_inits := by
      rcases fs with _ | ⟨f2, fs2⟩
      · rw [hnil rfl]
        exact ⟨rfl, rfl, rfl, rfl⟩
      · have hx := hcons (by simp)
        have hy := hlent f2 fs2 rfl
        exact ⟨by rw [hy.1, if_neg hne1], by rw [hy.2, if_neg hne1],
          by rw [hx.1, if_neg hne1], by rw [hx.2, if_neg hne1]⟩
    refine ⟨t, ?_, hWFt, ?_, ?_, hmt.trans hm1, hcnt.trans hcn1,
      hlit.trans hli1, htft.trans htf1, hodnt.trans hodn1, hodrt.trans hodr1,
      ?_, ?_, ?_, fun n hn => hmonot n (hmono1 n hn)⟩
    · simp [runUpdates, h1, ht]
    · rw [hupdt, hupd1]; simp; omega
    · rw [hfct, hfc1]; simp; omega
    · intro h; simp at h
    · intro _
      exact ⟨hts.2.2.1.trans hst1, hts.2.2.2.trans hsi1⟩
    · intro f2 fs2 heq
      injection heq with he1 he2
      subst he1
      subst he2
      exact ⟨hts.1.trans hll1, hts.2.1.trans hcl1⟩

theorem save_scene_of_mem {s : ExporterState} {ft : String}
    (h : ft ∈ allowedFiletypes) :
    save_scene s ft = some
      ({ s with
          stage := { s.stage with endTimeCode := s.frame_count }
          geom_refs :=
            s.geom_refs.map
              (fun p =>
                (p.1, p.2.updVisibility false (p.2.last_visible_frame + 1))) },
        s.output_directory_root ++ "/" ++ s.output_directory_name ++
          "/frames/frame_" ++ toString s.frame_count ++ "." ++ ft) := by
  simp [save_scene, h]

/-! ### Geometry records are never deleted -/

theorem update_geom_one_mono {s t : ExporterState} {g : GeomInstance}
    (h : update_geom_one s g = some t) (n : String)
    (hn : (getRef s.geom_refs n).isSome = true) :
    (getRef t.geom_refs n).isSome = true := by
  by_cases hmem : getGeomName s.model g ∈ s.geom_names
  · rcases hr : getRef s.geom_refs (getGeomName s.model g) with _ | r
    · rw [show update_geom_one s g = none by
        simp [update_geom_one, hmem, hr]] at h
      exact Option.noConfusion h
    · rw [update_geom_one_of_mem hmem hr] at h
      injection h with h
      subst h
      by_cases he : getGeomName s.model g = n
      · simp [getRef_setRef, he]
      · simp [getRef_setRef, he, hn]
  · rw [update_geom_one_of_not_mem hmem] at h
    injection h with h
    subst h
    by_cases he : getGeomName s.model g = n
    · simp [getRef_setRef, he]
    · simp [getRef_setRef, he, hn]

theorem update_geoms_mono (gs : List GeomInstance) :
    ∀ {s t : ExporterState}, update_geoms s gs = some t → ∀ n,
      (getRef s.geom_refs n).isSome = true →
      (getRef t.geom_refs n).isSome = true := by
  induction gs with
  | nil =>
    intro s t h n hn
    simp only [update_geoms] at h
    injection h with h
    subst h
    exact hn
  | cons g gs ih =>
    intro s t h n hn
    rcases h1 : update_geom_one s g with _ | s1
    · simp only [update_geoms, h1] at h
      exact Option.noConfusion h
    · simp only [update_geoms, h1] at h
      exact ih h n (update_geom_one_mono h1 n hn)

/-- Every successful `update_scene` call factors through the first-call
branch, the geometry loop, the light loop and the camera loop, with the
update counter bumped at the very end. -/
theorem update_scene_shape {f : FrameInput} {s t : ExporterState}
    (h : update_scene f s = some t) :
    ∃ s3,
      update_geoms
        (if s.updates = 0 then
          load_cameras
            (load_lights
              (initUsdStage { s with frame_count := s.frame_count + 1 })
              f.lights)
         else { s with frame_count := s.frame_count + 1 })
        f.geoms = some s3 ∧
      t = { update_cameras (update_lights s3 f.lights) f with
            updates := (update_cameras (update_lights s3 f.lights) f).updates + 1 } := by
  simp only [update_scene] at h
  split at h
  · exact Option.noConfusion h
  · rename_i s3 heq
    injection h with h
    exact ⟨s3, heq, h.symm⟩

theorem update_scene_mono {f : FrameInput} {s t : ExporterState}
    (h : update_scene f s = some t) (n : String)
    (hn : (getRef s.geom_refs n).isSome = true) :
    (getRef t.geom_refs n).isSome = true := by
  obtain ⟨s3, heq, rfl⟩ := update_scene_shape h
  have hn2 : (getRef
      ((if s.updates = 0 then
          load_cameras
            (load_lights
              (initUsdStage { s with frame_count := s.frame_count + 1 })
              f.lights)
        else { s with frame_count := s.frame_count + 1 }) : ExporterState).geom_refs
      n).isSome = true := by
    split
    · exact hn
    · exact hn
  have hmono := update_geoms_mono f.geoms heq n hn2
  simpa [update_cameras, update_lights] using hmono

theorem getRef_map_vis (m : List (String × USDGeomRef)) (n : String) :
    getRef
      (m.map (fun p => (p.1, p.2.updVisibility false (p.2.last_visible_frame + 1))))
      n =
      (getRef m n).map (fun r => r.updVisibility false (r.last_visible_frame + 1)) :=
  getRef_map m (fun r => r.updVisibility false (r.last_visible_frame + 1)) n

theorem save_scene_mono {s : ExporterState} {p : ExporterState × String}
    {ft : String} (h : save_scene s ft = some p) (n : String)
    (hn : (getRef s.geom_refs n).isSome = true) :
    (getRef p.1.geom_refs n).isSome = true := by
  unfold save_scene at h
  split at h
  · injection h with h
    subst h
    obtain ⟨r, hr⟩ := Option.isSome_iff_exists.mp hn
    simp [getRef_map_vis, hr]
  · exact Option.noConfusion h

/-- Claim C8: exported geometry records are never deleted during a session:
once `geom_refs` holds a record under some derived name, that name still
resolves to a record after any further sequence of `update_scene` and
(successful) `save_scene` calls — the record map only grows. -/
theorem claim_C8_records_persist (ops : List Op) :
    ∀ (s t : ExporterState), runOps ops s = some t → ∀ n,
      (getRef s.geom_refs n).isSome = true →
      (getRef t.geom_refs n).isSome = true := by
  induction ops with
  | nil =>
    intro s t h n hn
    simp only [runOps] at h
    injection h with h
    subst h
    exact hn
  | cons op ops ih =>
    intro s t h n hn
    cases op with
    | upd f =>
      rcases h1 : update_scene f s with _ | s1
      · simp only [runOps, h1] at h
        exact Option.noConfusion h
      · simp only [runOps, h1] at h
        exact ih s1 t h n (update_scene_mono h1 n hn)
    | save ft =>
      rcases h1 : save_scene s ft with _ | p
      · simp only [runOps, h1] at h
        exact Option.noConfusion h
      · simp only [runOps, h1] at h
        exact ih p.1 t h n (save_scene_mono h1 n hn)

/-! ### Concrete fixtures for witnesses and counterexamples -/

/-- A tiny concrete model. -/
def demoModel : MjModel :=
  { offwidth := 10
    offheight := 8
    ntex := 0
    id2name := fun _ _ => none
    geom_dataid := fun _ => 0
    mat_texid := fun _ => []
    tex_type := fun _ => 0 }

/-- A fresh exporter on the tiny model. -/
def demoState : ExporterState :=
  initState demoModel 8 10 1000 "pkg" "." 10000 (some ["cam"])

/-- A concrete unnamed box geom with object id 7. -/
def demoGeom : GeomInstance :=
  { objtype := MjtObj.geom
    objid := 7
    segid := -1
    gtype := MjtGeom.box
    matid := -1
    pos := (0, 0, 1)
    mat := [1, 0, 0, 0, 1, 0, 0, 0, 1]
    size := (1, 1, 1)
    rgba := ⟨1, 0, 0, 1⟩ }

/-- A second, distinct instance deriving the same name as `demoGeom`. -/
def demoGeomClash : GeomInstance :=
  { demoGeom with pos := (2, 0, 1) }

/-- A concrete averaged stereo camera pose. -/
def demoPose : CamPose :=
  { pos := (0, 0, 0), forward := (1, 0, 0), up := (0, 0, 1) }

/-- A light sitting exactly at the world origin. -/
def demoLightOrigin : LightInstance := { pos := (0, 0, 0), diffuse := (1, 1, 1) }

/-- A light away from the origin. -/
def demoLightAway : LightInstance := { pos := (3, 0, 0), diffuse := (1, 1, 1) }

/-- A concrete frame snapshot. -/
def demoFrame : FrameInput :=
  { geoms := [demoGeom]
    lights := [demoLightOrigin, demoLightAway]
    camPose := fun _ => demoPose }

/-- A frame whose two geometry instances derive the same name. -/
def demoFrameClash : FrameInput :=
  { geoms := [demoGeom, demoGeomClash]
    lights := []
    camPose := fun _ => demoPose }

/-- A pre-existing record under `demoGeom`'s derived name. -/
def demoRec : USDGeomRef :=
  { kind := GeomKind.primitiveKind
    obj_name := "None_id7_geom"
    dataid := none
    config := none
    rgba := ⟨1, 0, 0, 1⟩
    textures := []
    poseSamples := []
    scaleSamples := []
    visibilitySamples := []
    last_visible_frame := 0 }

/-- `demoState` with one registered geometry record. -/
def demoSeeded : ExporterState :=
  { demoState with
    geom_names := ["None_id7_geom"]
    geom_refs := [("None_id7_geom", demoRec)] }

/-! ### Claim theorems -/

/-- Claim C4: `USDExporter.__init__` validates the requested image
dimensions against the model's offscreen framebuffer: for `width ≤
offwidth` and `height ≤ offheight` the check passes and construction
proceeds to the initial state; when either dimension exceeds the buffer,
construction raises a `ValueError`. -/
theorem claim_C4_dimension_validation (model : MjModel)
    (height width max_geom : Nat) (odname odroot : String) (li : Int)
    (cn : Option (List String)) :
    (width ≤ model.offwidth ∧ height ≤ model.offheight →
      mkExporter model height width max_geom odname odroot li cn =
        Except.ok (initState model height width max_geom odname odroot li cn)) ∧
    (model.offwidth < width ∨ model.offheight < height →
      ∃ msg, mkExporter model height width max_geom odname odroot li cn =
        Except.error msg) := by
  constructor
  · rintro ⟨hw, hh⟩
    have hw2 : ¬ model.offwidth < width := by omega
    have hh2 : ¬ model.offheight < height := by omega
    simp [mkExporter, hw2, hh2]
  · intro h
    unfold mkExporter
    by_cases hw : model.offwidth < width
    · exact ⟨_, by rw [if_pos hw]⟩
    · rcases h with h | h
      · exact absurd h hw
      · exact ⟨_, by rw [if_neg hw, if_pos h]⟩

theorem claim_C4_dimension_validation_witness :
    (mkExporter demoModel 8 10 1000 "pkg" "." 10000 none =
      Except.ok (initState demoModel 8 10 1000 "pkg" "." 10000 none)) ∧
    (∃ msg, mkExporter demoModel 8 11 1000 "pkg" "." 10000 none =
      Except.error msg) :=
  ⟨(claim_C4_dimension_validation demoModel 8 10 1000 "pkg" "." 10000 none).1
      (by decide),
   (claim_C4_dimension_validation demoModel 8 11 1000 "pkg" "." 10000 none).2
      (Or.inl (by decide))⟩

/-- Claim C5: `save_scene` with a filetype tag outside {usd, usda, usdc}
fails its assertion before any serialization or file output is attempted
(no result is produced); for a tag in the set the assertion passes and the
export proceeds. -/
theorem claim_C5_filetype_assertion (s : ExporterState) (ft : String) :
    (ft ∉ allowedFiletypes → save_scene s ft = none) ∧
    (ft ∈ allowedFiletypes → ∃ p, save_scene s ft = some p) := by
  constructor
  · intro h
    simp [save_scene, h]
  · intro h
    exact ⟨_, save_scene_of_mem h⟩

theorem claim_C5_filetype_assertion_witness :
    save_scene demoState "xml" = none ∧
    ∃ p, save_scene demoState "usd" = some p :=
  ⟨(claim_C5_filetype_assertion demoState "xml").1 (by decide),
   (claim_C5_filetype_assertion demoState "usd").2 (by decide)⟩

/-- Claim C3: starting from a fresh exporter, N `update_scene` calls
followed by `save_scene` produce a stage whose start time code is 0 and
whose end time code is N — the time range is exactly [0, N]. -/
theorem claim_C3_time_range (model : MjModel) (height width max_geom : Nat)
    (odname odroot : String) (li : Int) (cn : Option (List String))
    (inputs : List FrameInput) (ft : String) (hft : ft ∈ allowedFiletypes) :
    ∃ t p,
      runUpdates inputs
        (initState model height width max_geom odname odroot li cn) = some t ∧
      save_scene t ft = some p ∧
      p.1.stage.startTimeCode = 0 ∧
      p.1.stage.endTimeCode = inputs.length := by
  obtain ⟨t, ht, _, _, hfc, _, _, _, _, _, _, hnil, hcons, _, _⟩ :=
    runUpdates_spec inputs _
      (WF_initState model height width max_geom odname odroot li cn)
  have hstage0 : t.stage.startTimeCode = 0 := by
    rcases inputs with _ | ⟨f, fs⟩
    · rw [hnil rfl]
      rfl
    · rw [(hcons (by simp)).1]
      simp [initState, freshStage]
  have hfc0 : t.frame_count = inputs.length := by
    rw [hfc]
    simp [initState]
  refine ⟨t, _, ht, save_scene_of_mem hft, ?_, ?_⟩
  · simpa using hstage0
  · simpa using hfc0

theorem claim_C3_time_range_witness :
    ("usd" ∈ allowedFiletypes) ∧
    ∃ t p,
      runUpdates [demoFrame]
        (initState demoModel 8 10 1000 "pkg" "." 10000 (some ["cam"])) =
        some t ∧
      save_scene t "usd" = some p ∧
      p.1.stage.startTimeCode = 0 ∧
      p.1.stage.endTimeCode = [demoFrame].length :=
  ⟨by decide,
   claim_C3_time_range demoModel 8 10 1000 "pkg" "." 10000 (some ["cam"])
     [demoFrame] "usd" (by decide)⟩

/-- Claim C7: the stage re-initialization and the population of the light
and camera record lists happen during the very first `update_scene` call
only: after N ≥ 1 calls the stage has been created exactly twice (once by
the constructor, once by call 1, never again), the light list holds one
slot per light of the first snapshot, the camera list one record per
configured name, and the gating update counter — incremented once per call,
at the end — equals N. -/
theorem claim_C7_first_call_init (model : MjModel)
    (height width max_geom : Nat) (odname odroot : String) (li : Int)
    (cn : Option (List String)) (f : FrameInput) (fs : List FrameInput) :
    ∃ t,
      runUpdates (f :: fs)
        (initState model height width max_geom odname odroot li cn) = some t ∧
      t.updates = fs.length + 1 ∧
      t.frame_count = fs.length + 1 ∧
      t.stage_inits = 2 ∧
      t.usd_lights.length = f.lights.length ∧
      t.usd_cameras.length = (cn.getD []).length := by
  obtain ⟨t, ht, _, hupd, hfc, _, _, _, _, _, _, hnil, hcons, hlen, _⟩ :=
    runUpdates_spec (f :: fs) _
      (WF_initState model height width max_geom odname odroot li cn)
  refine ⟨t, ht, ?_, ?_, ?_, ?_, ?_⟩
  · rw [hupd]; simp [initState]
  · rw [hfc]; simp [initState]
  · rw [(hcons (by simp)).2]; simp [initState]
  · rw [(hlen f fs rfl).1]; simp [initState]
  · rw [(hlen f fs rfl).2]; simp [initState]

theorem claim_C8_records_persist_witness :
    ∃ t, runOps [Op.upd demoFrame, Op.save "usd"] demoSeeded = some t ∧
      (getRef t.geom_refs "None_id7_geom").isSome = true := by
  rcases hrun : runOps [Op.upd demoFrame, Op.save "usd"] demoSeeded with _ | t
  · have hx : (runOps [Op.upd demoFrame, Op.save "usd"] demoSeeded).isSome =
        true := by rfl
    rw [hrun] at hx
    exact Bool.noConfusion hx
  · exact ⟨t, rfl,
      claim_C8_records_persist [Op.upd demoFrame, Op.save "usd"] demoSeeded t
        hrun "None_id7_geom" (by rfl)⟩

/-! ### Origin-positioned lights -/

theorem update_geom_one_nonGeom {s t : ExporterState} {g : GeomInstance}
    (h : update_geom_one s g = some t) : NonGeomEq s t := by
  by_cases hmem : getGeomName s.model g ∈ s.geom_names
  · rcases hr : getRef s.geom_refs (getGeomName s.model g) with _ | r
    · rw [show update_geom_one s g = none by
        simp [update_geom_one, hmem, hr]] at h
      exact Option.noConfusion h
    · rw [update_geom_one_of_mem hmem hr] at h
      injection h with h
      subst h
      simp [NonGeomEq]
  · rw [update_geom_one_of_not_mem hmem] at h
    injection h with h
    subst h
    simp [NonGeomEq]

theorem update_geoms_nonGeom (gs : List GeomInstance) :
    ∀ {s t : ExporterState}, update_geoms s gs = some t → NonGeomEq s t := by
  induction gs with
  | nil =>
    intro s t h
    simp only [update_geoms] at h
    injection h with h
    subst h
    exact nonGeomEq_refl s
  | cons g gs ih =>
    intro s t h
    rcases h1 : update_geom_one s g with _ | s1
    · simp only [update_geoms, h1] at h
      exact Option.noConfusion h
    · simp only [update_geoms, h1] at h
      exact nonGeomEq_trans (update_geom_one_nonGeom h1) (ih h)

/-- What one `update_scene` call does to `self.usd_lights`: the first call
first appends the loaded slots, then every call runs the `_update_lights`
zip over the snapshot's lights. -/
theorem update_scene_usd_lights {f : FrameInput} {s t : ExporterState}
    (h : update_scene f s = some t) :
    t.usd_lights =
      List.zipWith (updLightOne s.light_intensity s.updates) f.lights
          (if s.updates = 0 then s.usd_lights ++ lightsToRefs f.lights
           else s.usd_lights) ++
        (if s.updates = 0 then s.usd_lights ++ lightsToRefs f.lights
         else s.usd_lights).drop f.lights.length := by
  obtain ⟨s3, heq, rfl⟩ := update_scene_shape h
  obtain ⟨hm, hupd, hfc, hul, huc, hst, hsi, hcn, hli, htf, hodn, hodr⟩ :=
    update_geoms_nonGeom f.geoms heq
  by_cases hu : s.updates = 0
  · simp only [if_pos hu] at hul hupd hli ⊢
    simp only [load_cameras, load_lights, initUsdStage] at hul hupd hli
    simp only [update_cameras, update_lights]
    simp only [hul, hupd, hli]
  · simp only [if_neg hu] at hul hupd hli ⊢
    simp only [update_cameras, update_lights]
    simp only [hul, hupd, hli]

theorem updLightOne_none (inten : Int) (tme : Nat) (a : LightInstance) :
    updLightOne inten tme a none = none := by
  unfold updLightOne
  split <;> rfl

theorem update_lights_slot_none (inten : Int) (tme : Nat)
    (ls : List LightInstance) :
    ∀ (ul : List (Option USDLightRef)) (i : Nat), ul[i]? = some none →
      (List.zipWith (updLightOne inten tme) ls ul ++ ul.drop ls.length)[i]? =
        some none := by
  induction ls with
  | nil =>
    intro ul i hi
    simpa using hi
  | cons a ls ih =>
    intro ul i hi
    cases ul with
    | nil => simp at hi
    | cons b ul =>
      cases i with
      | zero =>
        simp only [List.getElem?_cons_zero] at hi
        injection hi with hi
        subst hi
        simp [updLightOne_none]
      | succ i =>
        simp only [List.getElem?_cons_succ] at hi
        simp only [List.zipWith_cons_cons, List.length_cons,
          List.drop_succ_cons, List.cons_append, List.getElem?_cons_succ]
        exact ih ul i hi

theorem lightsToRefs_get_none (ls : List LightInstance) (i : Nat)
    (l : LightInstance) (hl : ls[i]? = some l)
    (h : allcloseOrigin l.pos = true) :
    (lightsToRefs ls)[i]? = some none := by
  unfold lightsToRefs
  rw [List.getElem?_map, List.getElem?_enum, hl]
  simp [h]

theorem runUpdates_slot_none (fs : List FrameInput) :
    ∀ s : ExporterState, WF s → s.updates ≠ 0 →
    ∀ i : Nat, s.usd_lights[i]? = some none →
    ∃ t, runUpdates fs s = some t ∧ t.usd_lights[i]? = some none := by
  induction fs with
  | nil =>
    intro s _ _ i hi
    exact ⟨s, rfl, hi⟩
  | cons f fs ih =>
    intro s hWF hne i hi
    obtain ⟨t1, h1, hWF1, hupd1, -, -, -, -, -, -, -, -, -, -, -, -⟩ :=
      update_scene_spec f s hWF
    have h1i : t1.usd_lights[i]? = some none := by
      rw [update_scene_usd_lights h1, if_neg hne]
      exact update_lights_slot_none s.light_intensity s.updates f.lights
        s.usd_lights i hi
    obtain ⟨t, ht, hti⟩ := ih t1 hWF1 (by omega) i h1i
    refine ⟨t, ?_, hti⟩
    simp only [runUpdates, h1]
    exact ht

/-- Claim C6: a light whose position is (approximately) the world origin in
the first snapshot is never translated into an exported light record: its
slot is the `None` placeholder after the first `update_scene` call and
stays `None` after every further call, so no exported record for it exists
at any time sample. -/
theorem claim_C6_origin_light (model : MjModel) (height width max_geom : Nat)
    (odname odroot : String) (li : Int) (cn : Option (List String))
    (f : FrameInput) (fs : List FrameInput) (i : Nat) (l : LightInstance)
    (hl : f.lights[i]? = some l) (horigin : allcloseOrigin l.pos = true) :
    ∃ t,
      runUpdates (f :: fs)
        (initState model height width max_geom odname odroot li cn) = some t ∧
      t.usd_lights[i]? = some none := by
  obtain ⟨t1, h1, hWF1, hupd1, -, -, -, -, -, -, -, -, -, -, -, -⟩ :=
    update_scene_spec f
      (initState model height width max_geom odname odroot li cn)
      (WF_initState model height width max_geom odname odroot li cn)
  have hz : (initState model height width max_geom odname odroot li cn).updates
      = 0 := rfl
  have hlights1 : t1.usd_lights[i]? = some none := by
    rw [update_scene_usd_lights h1, if_pos hz]
    apply update_lights_slot_none
    show (([] : List (Option USDLightRef)) ++ lightsToRefs f.lights)[i]? =
      some none
    rw [List.nil_append]
    exact lightsToRefs_get_none f.lights i l hl horigin
  obtain ⟨t, ht, hti⟩ := runUpdates_slot_none fs t1 hWF1 (by omega) i hlights1
  refine ⟨t, ?_, hti⟩
  simp only [runUpdates, h1]
  exact ht

theorem claim_C6_origin_light_witness :
    (demoFrame.lights[0]? = some demoLightOrigin) ∧
    allcloseOrigin demoLightOrigin.pos = true ∧
    ∃ t,
      runUpdates [demoFrame]
        (initState demoModel 8 10 1000 "pkg" "." 10000 (some ["cam"])) =
        some t ∧
      t.usd_lights[0]? = some none :=
  ⟨by decide, by decide,
   claim_C6_origin_light demoModel 8 10 1000 "pkg" "." 10000 (some ["cam"])
     demoFrame [] 0 demoLightOrigin (by decide) (by decide)⟩

/-- Claim C1 (amended): a derived-name collision does not abort the
per-frame path. The assertion in `_load_geom` fires exactly when
`_load_geom` is invoked with an already-registered name, but
`_update_geoms` guards that call with `geom_name not in self.geom_names`,
so `update_scene` succeeds on every frame — including a frame whose
instances collide — and the colliding second instance's update is silently
applied to the existing record instead of raising. -/
theorem claim_C1_collision_amended (s : ExporterState) (g : GeomInstance)
    (f : FrameInput) (hWF : WF s)
    (hmem : getGeomName s.model g ∈ s.geom_names) :
    load_geom s g = none ∧ ∃ t, update_scene f s = some t := by
  constructor
  · simp [load_geom, hmem]
  · obtain ⟨t, ht, _⟩ := update_scene_spec f s hWF
    exact ⟨t, ht⟩

theorem claim_C1_collision_amended_witness :
    load_geom demoSeeded demoGeom = none ∧
    ∃ t, update_scene demoFrameClash demoSeeded = some t :=
  claim_C1_collision_amended demoSeeded demoGeom demoFrameClash (by rfl)
    (by decide)

/-- Claim C1 counterexample: a session whose first frame holds two distinct
geometry instances deriving the same name processes the second instance
without an assertion failure: `update_scene` succeeds, and the single
record under the shared name silently receives both updates (two
visibility samples at time sample 0) instead of the claimed abort. -/
theorem claim_C1_collision_counterexample :
    demoGeom ≠ demoGeomClash ∧
    getGeomName demoModel demoGeom = getGeomName demoModel demoGeomClash ∧
    (update_scene demoFrameClash demoState).isSome = true ∧
    (update_scene demoFrameClash demoState).map
        (fun t => (getRef t.geom_refs "None_id7_geom").map
          (fun r => r.visibilitySamples)) =
      some (some [(0, true), (0, true)]) :=
  ⟨by decide, by rfl, by rfl, by rfl⟩

/-- Claim C10: `add_light` with an unrecognized `light_type` is a silent
no-op — no error, no record, the exporter state (stage, record lists,
counters) is returned unchanged; `"sphere"` creates a sphere-light record
on the stage with a single update at time sample 0; `"dome"` creates a
dome-light record with a single update carrying no time sample. -/
theorem claim_C10_add_light (s : ExporterState) (pos : Vec3)
    (intensity : Int) (radius : ℚ) (color : Vec3) (name lt : String)
    (h1 : lt ≠ "sphere") (h2 : lt ≠ "dome") :
    add_light s pos intensity radius color name lt = s ∧
    add_light s pos intensity radius color name "sphere" =
      { s with stage := { s.stage with adhocLights := s.stage.adhocLights ++
          [{ kind := LightKind.sphereKind, obj_name := name, radius := radius,
             samples := [{ pos := some pos, intensity := intensity,
                           color := color, frame := some 0 }] }] } } ∧
    add_light s pos intensity radius color name "dome" =
      { s with stage := { s.stage with adhocLights := s.stage.adhocLights ++
          [{ kind := LightKind.domeKind, obj_name := name, radius := 1,
             samples := [{ pos := none, intensity := intensity,
                           color := color, frame := none }] }] } } := by
  refine ⟨?_, ?_, ?_⟩
  · unfold add_light
    rw [if_neg h1, if_neg h2]
  · rfl
  · rfl

theorem claim_C10_add_light_witness :
    add_light demoState (1, 2, 3) 5 2 (1, 1, 1) "L" "point" = demoState :=
  (claim_C10_add_light demoState (1, 2, 3) 5 2 (1, 1, 1) "L" "point"
    (by decide) (by decide)).1

/-! ### Time-sample indices used inside one `update_scene` call -/

/-- The state the geometry loop starts from inside `update_scene`: the
frame counter is already bumped, and on the first call the stage was
re-created and the light/camera lists populated. -/
def branchState (f : FrameInput) (s : ExporterState) : ExporterState :=
  if s.updates = 0 then
    load_cameras
      (load_lights (initUsdStage { s with frame_count := s.frame_count + 1 })
        f.lights)
  else { s with frame_count := s.frame_count + 1 }

theorem update_scene_shape2 {f : FrameInput} {s t : ExporterState}
    (h : update_scene f s = some t) :
    ∃ s3, update_geoms (branchState f s) f.geoms = some s3 ∧
      t = { update_cameras (update_lights s3 f.lights) f with
            updates := (update_cameras (update_lights s3 f.lights) f).updates + 1 } := by
  obtain ⟨s3, heq, ht⟩ := update_scene_shape h
  exact ⟨s3, heq, ht⟩

theorem branchState_model (f : FrameInput) (s : ExporterState) :
    (branchState f s).model = s.model := by
  unfold branchState
  split <;> rfl

theorem branchState_updates (f : FrameInput) (s : ExporterState) :
    (branchState f s).updates = s.updates := by
  unfold branchState
  split <;> rfl

theorem branchState_light_intensity (f : FrameInput) (s : ExporterState) :
    (branchState f s).light_intensity = s.light_intensity := by
  unfold branchState
  split <;> rfl

theorem branchState_geom_names (f : FrameInput) (s : ExporterState) :
    (branchState f s).geom_names = s.geom_names := by
  unfold branchState
  split <;> rfl

theorem branchState_geom_refs (f : FrameInput) (s : ExporterState) :
    (branchState f s).geom_refs = s.geom_refs := by
  unfold branchState
  split <;> rfl

theorem branchState_WF (f : FrameInput) (s : ExporterState) (hWF : WF s) :
    WF (branchState f s) := by
  unfold WF
  rw [branchState_geom_names, branchState_geom_refs]
  exact hWF

theorem frameUpdate_last (g : GeomInstance) (tme : Nat) (r : USDGeomRef) :
    (frameUpdate g tme r).visibilitySamples.getLast? =
      some (tme, decide (0 < g.rgba.a)) := by
  simp [frameUpdate, USDGeomRef.updateRef, List.getLast?_concat]

theorem update_geom_one_last {s t : ExporterState} {g : GeomInstance}
    (h : update_geom_one s g = some t) :
    ∃ r, getRef t.geom_refs (getGeomName s.model g) = some r ∧
      r.visibilitySamples.getLast? = some (s.updates, decide (0 < g.rgba.a)) := by
  by_cases hmem : getGeomName s.model g ∈ s.geom_names
  · rcases hr : getRef s.geom_refs (getGeomName s.model g) with _ | r0
    · rw [show update_geom_one s g = none by
        simp [update_geom_one, hmem, hr]] at h
      exact Option.noConfusion h
    · rw [update_geom_one_of_mem hmem hr] at h
      injection h with h
      subst h
      refine ⟨_, ?_, frameUpdate_last g s.updates r0⟩
      simp [getRef_setRef]
  · rw [update_geom_one_of_not_mem hmem] at h
    injection h with h
    subst h
    refine ⟨_, ?_, frameUpdate_last g s.updates (newGeomRef s g)⟩
    simp [getRef_setRef]

theorem update_geom_one_records {s t : ExporterState} {g : GeomInstance}
    (h : update_geom_one s g = some t) (n : String) (r : USDGeomRef)
    (hr : getRef t.geom_refs n = some r) :
    getRef s.geom_refs n = some r ∨
      ∃ v, r.visibilitySamples.getLast? = some (s.updates, v) := by
  by_cases hmem : getGeomName s.model g ∈ s.geom_names
  · rcases hr0 : getRef s.geom_refs (getGeomName s.model g) with _ | r0
    · rw [show update_geom_one s g = none by
        simp [update_geom_one, hmem, hr0]] at h
      exact Option.noConfusion h
    · rw [update_geom_one_of_mem hmem hr0] at h
      injection h with h
      subst h
      by_cases he : getGeomName s.model g = n
      · right
        simp only [getRef_setRef, if_pos he] at hr
        injection hr with hr
        subst hr
        exact ⟨_, frameUpdate_last g s.updates r0⟩
      · left
        simpa [getRef_setRef, he] using hr
  · rw [update_geom_one_of_not_mem hmem] at h
    injection h with h
    subst h
    by_cases he : getGeomName s.model g = n
    · right
      simp only [getRef_setRef, if_pos he] at hr
      injection hr with hr
      subst hr
      exact ⟨_, frameUpdate_last g s.updates (newGeomRef s g)⟩
    · left
      simpa [getRef_setRef, he] using hr

theorem update_geoms_records (gs : List GeomInstance) :
    ∀ {s t : ExporterState}, update_geoms s gs = some t →
    ∀ n r, getRef t.geom_refs n = some r →
      getRef s.geom_refs n = some r ∨
        ∃ v, r.visibilitySamples.getLast? = some (s.updates, v) := by
  induction gs with
  | nil =>
    intro s t h n r hr
    simp only [update_geoms] at h
    injection h with h
    subst h
    exact Or.inl hr
  | cons g gs ih =>
    intro s t h n r hr
    rcases h1 : update_geom_one s g with _ | s1
    · simp only [update_geoms, h1] at h
      exact Option.noConfusion h
    · simp only [update_geoms, h1] at h
      rcases ih h n r hr with hcase | hcase
      · rcases update_geom_one_records h1 n r hcase with h2 | h2
        · exact Or.inl h2
        · exact Or.inr h2
      · right
        rwa [(update_geom_one_nonGeom h1).2.1] at hcase

theorem update_geoms_last_processed (gs : List GeomInstance) :
    ∀ {s t : ExporterState}, WF s → update_geoms s gs = some t →
    ∀ g ∈ gs, ∃ r, getRef t.geom_refs (getGeomName s.model g) = some r ∧
      ∃ v, r.visibilitySamples.getLast? = some (s.updates, v) := by
  induction gs with
  | nil =>
    intro s t _ _ g hg
    simp at hg
  | cons g0 gs ih =>
    intro s t hWF h g hg
    obtain ⟨s1, h1, hWF1, hNG1, hmono1, hmem1⟩ := update_geom_one_spec s g0 hWF
    simp only [update_geoms, h1] at h
    rcases List.mem_cons.mp hg with rfl | hg2
    · obtain ⟨r1, hr1, hlast1⟩ := update_geom_one_last h1
      have hsome : (getRef t.geom_refs (getGeomName s.model g)).isSome = true :=
        update_geoms_mono gs h _ (by simp [hr1])
      obtain ⟨r, hr⟩ := Option.isSome_iff_exists.mp hsome
      refine ⟨r, hr, ?_⟩
      rcases update_geoms_records gs h _ r hr with hcase | hcase
      · rw [hr1] at hcase
        injection hcase with hcase
        subst hcase
        exact ⟨_, hlast1⟩
      · rwa [(update_geom_one_nonGeom h1).2.1] at hcase
    · have hx := ih hWF1 h g hg2
      rwa [hNG1.1, hNG1.2.1] at hx

theorem update_cameras_last (x : ExporterState) (f : FrameInput) :
    ∀ c ∈ (update_cameras x f).usd_cameras,
      ∃ v, c.samples.getLast? = some (x.updates, v) := by
  intro c hc
  simp only [update_cameras, List.mem_map] at hc
  obtain ⟨p, hp, rfl⟩ := hc
  refine ⟨((f.camPose p.1).pos,
    crossQ (f.camPose p.1).forward (f.camPose p.1).up, (f.camPose p.1).up,
    negV (f.camPose p.1).forward), ?_⟩
  simp [List.getLast?_concat]

theorem zipWith_lights_get (inten : Int) (tme : Nat)
    (ls : List LightInstance) :
    ∀ (ul : List (Option USDLightRef)) (i : Nat) (l : LightInstance),
      ls[i]? = some l →
      (List.zipWith (updLightOne inten tme) ls ul ++ ul.drop ls.length)[i]? =
        (ul[i]?).map (updLightOne inten tme l) := by
  induction ls with
  | nil =>
    intro ul i l h
    simp at h
  | cons a ls ih =>
    intro ul i l h
    cases ul with
    | nil => simp
    | cons b ul =>
      cases i with
      | zero =>
        simp only [List.getElem?_cons_zero] at h
        injection h with h
        subst h
        simp
      | succ i =>
        simp only [List.getElem?_cons_succ] at h
        simp only [List.zipWith_cons_cons, List.length_cons,
          List.drop_succ_cons, List.cons_append, List.getElem?_cons_succ]
        exact ih ul i l h

/-- Claim C9: during the Nth `update_scene` call (entered with both
counters at N−1, which every run from a fresh exporter maintains), the
frame counter is bumped to N at the start of the call while every record
update written during the call carries time-sample index N−1 — the value of
the update counter, which is bumped only at the end. Concretely: after the
call both counters equal N = (pre-call `updates`) + 1, every snapshot
geometry's record ends with a visibility sample at time N−1, every camera
record ends with a pose sample at time N−1, and every live non-origin light
slot ends with an update at time N−1. Time samples are zero-based while
call numbering is one-based. -/
theorem claim_C9_counter_skew (f : FrameInput) (s t : ExporterState)
    (hWF : WF s) (hsync : s.frame_count = s.updates)
    (h : update_scene f s = some t) :
    t.frame_count = s.updates + 1 ∧
    t.updates = s.updates + 1 ∧
    (∀ g ∈ f.geoms, ∃ r, getRef t.geom_refs (getGeomName s.model g) = some r ∧
      ∃ v, r.visibilitySamples.getLast? = some (s.updates, v)) ∧
    (∀ c ∈ t.usd_cameras, ∃ v, c.samples.getLast? = some (s.updates, v)) ∧
    (∀ (i : Nat) (l : LightInstance) (rec2 : USDLightRef),
      f.lights[i]? = some l → allcloseOrigin l.pos = false →
      t.usd_lights[i]? = some (some rec2) →
      ∃ u, rec2.samples.getLast? = some u ∧ u.frame = some s.updates) := by
  obtain ⟨t', ht', hWF', hupd', hfc', -, -, -, -, -, -, -, -, -, -, -⟩ :=
    update_scene_spec f s hWF
  rw [h] at ht'
  injection ht' with hteq
  subst hteq
  obtain ⟨s3, heq, hts⟩ := update_scene_shape2 h
  have hNG3 := update_geoms_nonGeom f.geoms heq
  have hs3u : s3.updates = s.updates := by
    rw [hNG3.2.1, branchState_updates]
  refine ⟨by rw [hfc', hsync], hupd', ?_, ?_, ?_⟩
  · intro g hg
    have hx := update_geoms_last_processed f.geoms
      (branchState_WF f s hWF) heq g hg
    rw [branchState_model, branchState_updates] at hx
    obtain ⟨r, hr, hv⟩ := hx
    refine ⟨r, ?_, hv⟩
    rw [hts]
    simpa [update_cameras, update_lights] using hr
  · intro c hc
    rw [hts] at hc
    have hc2 : c ∈ (update_cameras (update_lights s3 f.lights) f).usd_cameras := hc
    obtain ⟨v, hv⟩ := update_cameras_last (update_lights s3 f.lights) f c hc2
    refine ⟨v, ?_⟩
    rw [hv]
    simp only [update_lights]
    rw [hs3u]
  · intro i l rec2 hl hno ht2
    rw [update_scene_usd_lights h] at ht2
    rw [zipWith_lights_get s.light_intensity s.updates f.lights _ i l hl] at ht2
    rcases hmid : (if s.updates = 0 then s.usd_lights ++ lightsToRefs f.lights
        else s.usd_lights)[i]? with _ | o
    · rw [hmid] at ht2
      exact Option.noConfusion ht2
    · rw [hmid] at ht2
      injection ht2 with ht2
      rcases o with _ | r0
      · rw [show updLightOne s.light_intensity s.updates l none = none from
          updLightOne_none s.light_intensity s.updates l] at ht2
        exact Option.noConfusion ht2
      · unfold updLightOne at ht2
        rw [if_neg (by simp [hno])] at ht2
        injection ht2 with ht2
        subst ht2
        exact ⟨_, List.getLast?_concat _, rfl⟩

theorem claim_C9_counter_skew_witness :
    ∃ t, update_scene demoFrame demoState = some t ∧
      t.frame_count = demoState.updates + 1 ∧
      t.updates = demoState.updates + 1 := by
  rcases hrun : update_scene demoFrame demoState with _ | t
  · have hx : (update_scene demoFrame demoState).isSome = true := by rfl
    rw [hrun] at hx
    exact Bool.noConfusion hx
  · obtain ⟨h1, h2, -, -, -⟩ :=
      claim_C9_counter_skew demoFrame demoState t (by rfl) (by rfl) hrun
    exact ⟨t, rfl, h1, h2⟩

/-! ### Tracking one derived name across a session -/

theorem update_geom_one_WF {s t : ExporterState} {g : GeomInstance}
    (hWF : WF s) (h : update_geom_one s g = some t) : WF t := by
  obtain ⟨t', h', hWF', -, -, -⟩ := update_geom_one_spec s g hWF
  rw [h] at h'
  injection h' with h'
  subst h'
  exact hWF'

theorem update_geom_one_other {s t : ExporterState} {g : GeomInstance}
    (h : update_geom_one s g = some t) (nm : String)
    (hne : getGeomName s.model g ≠ nm) :
    getRef t.geom_refs nm = getRef s.geom_refs nm := by
  by_cases hmem : getGeomName s.model g ∈ s.geom_names
  · rcases hr : getRef s.geom_refs (getGeomName s.model g) with _ | r0
    · rw [show update_geom_one s g = none by
        simp [update_geom_one, hmem, hr]] at h
      exact Option.noConfusion h
    · rw [update_geom_one_of_mem hmem hr] at h
      injection h with h
      subst h
      simp [getRef_setRef, hne]
  · rw [update_geom_one_of_not_mem hmem] at h
    injection h with h
    subst h
    simp [getRef_setRef, hne]

theorem update_geoms_other (nm : String) (gs : List GeomInstance) :
    ∀ {s t : ExporterState}, update_geoms s gs = some t →
      (∀ g ∈ gs, getGeomName s.model g ≠ nm) →
      getRef t.geom_refs nm = getRef s.geom_refs nm := by
  induction gs with
  | nil =>
    intro s t h _
    simp only [update_geoms] at h
    injection h with h
    subst h
    rfl
  | cons g1 gs1 ih =>
    intro s t h hno
    rcases h1 : update_geom_one s g1 with _ | s1
    · simp only [update_geoms, h1] at h
      exact Option.noConfusion h
    · simp only [update_geoms, h1] at h
      have hNG1 := update_geom_one_nonGeom h1
      have hno1 : ∀ g ∈ gs1, getGeomName s1.model g ≠ nm := by
        intro g hg
        rw [hNG1.1]
        exact hno g (List.mem_cons_of_mem g1 hg)
      rw [ih h hno1, update_geom_one_other h1 nm (hno g1 (List.mem_cons_self g1 gs1))]

theorem newGeomRef_congr (s1 s : ExporterState) (g : GeomInstance)
    (hm : s1.model = s.model) (ht : s1.texture_files = s.texture_files) :
    newGeomRef s1 g = newGeomRef s g := by
  simp [newGeomRef, geomTextures, hm, ht]

theorem newGeomRef_visibilitySamples (s : ExporterState) (g : GeomInstance) :
    (newGeomRef s g).visibilitySamples = [] := by
  unfold newGeomRef
  split
  · rfl
  · split <;> rfl

theorem newGeomRef_last_visible_frame (s : ExporterState) (g : GeomInstance) :
    (newGeomRef s g).last_visible_frame = 0 := by
  unfold newGeomRef
  split
  · rfl
  · split <;> rfl

theorem update_geoms_filter_one (nm : String) (gs : List GeomInstance) :
    ∀ {s t : ExporterState} {g : GeomInstance}, WF s →
      update_geoms s gs = some t →
      gs.filter (fun x => decide (getGeomName s.model x = nm)) = [g] →
      getRef t.geom_refs nm =
        some (frameUpdate g s.updates
          ((getRef s.geom_refs nm).getD (newGeomRef s g))) := by
  induction gs with
  | nil =>
    intro s t g _ _ hfil
    simp at hfil
  | cons g1 gs1 ih =>
    intro s t g hWF h hfil
    rcases h1 : update_geom_one s g1 with _ | s1
    · simp only [update_geoms, h1] at h
      exact Option.noConfusion h
    · simp only [update_geoms, h1] at h
      obtain ⟨hm1, hu1, -, -, -, -, -, -, -, htf1, -, -⟩ :=
        update_geom_one_nonGeom h1
      have hWF1 := update_geom_one_WF hWF h1
      by_cases hname : getGeomName s.model g1 = nm
      · rw [List.filter_cons_of_pos (by simp [hname])] at hfil
        injection hfil with hg hrest
        subst hg
        have hrec1 : getRef s1.geom_refs nm =
            some (frameUpdate g1 s.updates
              ((getRef s.geom_refs nm).getD (newGeomRef s g1))) := by
          by_cases hmem : getGeomName s.model g1 ∈ s.geom_names
          · have hkeys : getGeomName s.model g1 ∈ s.geom_refs.map Prod.fst := by
              rw [← hWF]; exact hmem
            obtain ⟨r0, hr0⟩ :=
              Option.isSome_iff_exists.mp ((getRef_isSome_iff _ _).mpr hkeys)
            have e1 := update_geom_one_of_mem hmem hr0
            rw [h1] at e1
            injection e1 with e1
            rw [e1]
            have hr0n : getRef s.geom_refs nm = some r0 := hname ▸ hr0
            simp [getRef_setRef, hname, hr0n]
          · have e1 := update_geom_one_of_not_mem hmem
            rw [h1] at e1
            injection e1 with e1
            rw [e1]
            have hkeys : getGeomName s.model g1 ∉ s.geom_refs.map Prod.fst := by
              rw [← hWF]; exact hmem
            have hr0n : getRef s.geom_refs nm = none := by
              rw [← hname]
              exact (getRef_eq_none_iff _ _).mpr hkeys
            simp [getRef_setRef, hname, hr0n]
        have htail : ∀ x ∈ gs1, getGeomName s1.model x ≠ nm := by
          intro x hx
          have hy := (List.filter_eq_nil_iff.mp hrest) x hx
          simp only [decide_eq_true_eq] at hy
          rw [hm1]
          exact hy
        rw [update_geoms_other nm gs1 h htail, hrec1]
      · rw [List.filter_cons_of_neg (by simp [hname])] at hfil
        have hfil1 :
            gs1.filter (fun x => decide (getGeomName s1.model x = nm)) = [g] := by
          rw [hm1]
          exact hfil
        have hx := ih hWF1 h hfil1
        rw [update_geom_one_other h1 nm hname] at hx
        rw [hu1] at hx
        rw [newGeomRef_congr s1 s g hm1 htf1] at hx
        exact hx

theorem branchState_texture_files (f : FrameInput) (s : ExporterState) :
    (branchState f s).texture_files = s.texture_files := by
  unfold branchState
  split <;> rfl

theorem update_scene_filter_one {f : FrameInput} {s t : ExporterState}
    (hWF : WF s) (h : update_scene f s = some t) (nm : String)
    (g : GeomInstance)
    (hfil : f.geoms.filter (fun x => decide (getGeomName s.model x = nm)) = [g]) :
    getRef t.geom_refs nm =
      some (frameUpdate g s.updates
        ((getRef s.geom_refs nm).getD (newGeomRef s g))) := by
  obtain ⟨s3, heq, rfl⟩ := update_scene_shape2 h
  have hfil2 : f.geoms.filter
      (fun x => decide (getGeomName (branchState f s).model x = nm)) = [g] := by
    rw [branchState_model]
    exact hfil
  have hx := update_geoms_filter_one nm f.geoms (branchState_WF f s hWF) heq hfil2
  rw [branchState_updates, branchState_geom_refs,
    newGeomRef_congr (branchState f s) s g (branchState_model f s)
      (branchState_texture_files f s)] at hx
  simpa [update_cameras, update_lights] using hx

theorem update_scene_other {f : FrameInput} {s t : ExporterState}
    (h : update_scene f s = some t) (nm : String)
    (hno : ∀ g ∈ f.geoms, getGeomName s.model g ≠ nm) :
    getRef t.geom_refs nm = getRef s.geom_refs nm := by
  obtain ⟨s3, heq, rfl⟩ := update_scene_shape2 h
  have hno2 : ∀ g ∈ f.geoms, getGeomName (branchState f s).model g ≠ nm := by
    intro g hg
    rw [branchState_model]
    exact hno g hg
  have hx := update_geoms_other nm f.geoms heq hno2
  rw [branchState_geom_refs] at hx
  simpa [update_cameras, update_lights] using hx

theorem runUpdates_append (as bs : List FrameInput) :
    ∀ {s t1 t2 : ExporterState}, runUpdates as s = some t1 →
      runUpdates bs t1 = some t2 → runUpdates (as ++ bs) s = some t2 := by
  induction as with
  | nil =>
    intro s t1 t2 h1 h2
    simp only [runUpdates] at h1
    injection h1 with h1
    subst h1
    simpa using h2
  | cons a as ih =>
    intro s t1 t2 h1 h2
    rcases ha : update_scene a s with _ | sa
    · simp only [runUpdates, ha] at h1
      exact Option.noConfusion h1
    · simp only [runUpdates, ha] at h1
      simp only [List.cons_append, runUpdates, ha]
      exact ih h1 h2

theorem frameUpdate_vis (g : GeomInstance) (tme : Nat) (r : USDGeomRef) :
    (frameUpdate g tme r).visibilitySamples =
      r.visibilitySamples ++ [(tme, decide (0 < g.rgba.a))] := by
  simp [frameUpdate, USDGeomRef.updateRef]

theorem frameUpdate_lvf_vis (g : GeomInstance) (tme : Nat) (r : USDGeomRef)
    (h : 0 < g.rgba.a) :
    (frameUpdate g tme r).last_visible_frame = tme := by
  simp [frameUpdate, USDGeomRef.updateRef, decide_eq_true h]

theorem updVisibility_vis (r : USDGeomRef) (b : Bool) (tme : Nat) :
    (r.updVisibility b tme).visibilitySamples =
      r.visibilitySamples ++ [(tme, b)] := rfl

theorem range_map_shift (u n : Nat) :
    (u, true) :: (List.range n).map (fun j => (u + 1 + j, true)) =
      (List.range (n + 1)).map (fun j => (u + j, true)) := by
  have htail : (List.range n).map (fun j => (u + 1 + j, true)) =
      (List.range n).map ((fun j => (u + j, true)) ∘ Nat.succ) := by
    apply List.map_congr_left
    intro a _
    simp only [Function.comp_apply]
    congr 1
    omega
  rw [List.range_succ_eq_map, List.map_cons, List.map_map, htail]
  simp

theorem range_map_base (n : Nat) :
    ((0 : Nat), true) :: (List.range n).map (fun j => (1 + j, true)) =
      (List.range (n + 1)).map (fun j => ((j : Nat), true)) := by
  have htail : (List.range n).map (fun j => (1 + j, true)) =
      (List.range n).map ((fun j => ((j : Nat), true)) ∘ Nat.succ) := by
    apply List.map_congr_left
    intro a _
    simp only [Function.comp_apply]
    congr 1
    omega
  rw [List.range_succ_eq_map, List.map_cons, List.map_map, htail]

theorem runUpdates_visible_track (nm : String) (fs : List FrameInput) :
    ∀ (s : ExporterState) (r : USDGeomRef), WF s →
      (∀ f ∈ fs, ∃ g, f.geoms.filter
          (fun x => decide (getGeomName s.model x = nm)) = [g] ∧
          0 < g.rgba.a) →
      getRef s.geom_refs nm = some r →
      ∃ t r2, runUpdates fs s = some t ∧ WF t ∧ t.model = s.model ∧
        t.updates = s.updates + fs.length ∧
        getRef t.geom_refs nm = some r2 ∧
        r2.visibilitySamples = r.visibilitySamples ++
          (List.range fs.length).map (fun j => (s.updates + j, true)) ∧
        r2.last_visible_frame =
          (if fs.length = 0 then r.last_visible_frame
           else s.updates + fs.length - 1) := by
  induction fs with
  | nil =>
    intro s r hWF _ hr
    exact ⟨s, r, rfl, hWF, rfl, by simp, hr, by simp, by simp⟩
  | cons f fs ih =>
    intro s r hWF hall hr
    obtain ⟨g, hfil, halpha⟩ := hall f (List.mem_cons_self f fs)
    obtain ⟨s1, h1, hWF1, hupd1, -, hm1, -, -, -, -, -, -, -, -, -, -⟩ :=
      update_scene_spec f s hWF
    have hrec1 := update_scene_filter_one hWF h1 nm g hfil
    rw [hr] at hrec1
    simp only [Option.getD_some] at hrec1
    have hall1 : ∀ f2 ∈ fs, ∃ g2, f2.geoms.filter
        (fun x => decide (getGeomName s1.model x = nm)) = [g2] ∧
        0 < g2.rgba.a := by
      rw [hm1]
      intro f2 hf2
      exact hall f2 (List.mem_cons_of_mem f hf2)
    obtain ⟨t, r2, ht, hWFt, hmt, hupdt, hreft, hvist, hlvft⟩ :=
      ih s1 (frameUpdate g s.updates r) hWF1 hall1 hrec1
    refine ⟨t, r2, ?_, hWFt, hmt.trans hm1, ?_, hreft, ?_, ?_⟩
    · simp only [runUpdates, h1]
      exact ht
    · rw [hupdt, hupd1, List.length_cons]
      omega
    · rw [hvist, frameUpdate_vis, decide_eq_true halpha, hupd1,
        List.append_assoc, List.length_cons, List.singleton_append]
      congr 1
      exact range_map_shift s.updates fs.length
    · rw [hlvft, hupd1, frameUpdate_lvf_vis g s.updates r halpha,
        List.length_cons]
      by_cases hz : fs.length = 0
      · simp [hz]
      · rw [if_neg hz, if_neg (Nat.succ_ne_zero fs.length)]
        omega

theorem runUpdates_absent_track (nm : String) (fs : List FrameInput) :
    ∀ (s : ExporterState), WF s →
      (∀ f ∈ fs, ∀ g ∈ f.geoms, getGeomName s.model g ≠ nm) →
      ∃ t, runUpdates fs s = some t ∧ WF t ∧ t.model = s.model ∧
        getRef t.geom_refs nm = getRef s.geom_refs nm := by
  induction fs with
  | nil =>
    intro s hWF _
    exact ⟨s, rfl, hWF, rfl, rfl⟩
  | cons f fs ih =>
    intro s hWF hno
    obtain ⟨s1, h1, hWF1, -, -, hm1, -, -, -, -, -, -, -, -, -, -⟩ :=
      update_scene_spec f s hWF
    have hother := update_scene_other h1 nm (hno f (List.mem_cons_self f fs))
    have hno1 : ∀ f2 ∈ fs, ∀ g ∈ f2.geoms, getGeomName s1.model g ≠ nm := by
      rw [hm1]
      intro f2 hf2 g hg
      exact hno f2 (List.mem_cons_of_mem f hf2) g hg
    obtain ⟨t, ht, hWFt, hmt, hreft⟩ := ih s1 hWF1 hno1
    refine ⟨t, ?_, hWFt, hmt.trans hm1, hreft.trans hother⟩
    simp only [runUpdates, h1]
    exact ht

/-- Claim C2: a geometry instance present (exactly once, with positive
alpha) in the snapshots of `update_scene` calls 1..k and absent afterwards
ends, after `save_scene`, with a record whose visibility time samples are
`true` at time-sample indices 0..k−1 — i.e. at output frames 1..k, frame n
being written at zero-based sample n−1 — followed by a single `false`
sample at index k (frame k+1), placed at `last_visible_frame + 1 = k`; it
is invisible from frame k+1 onward. -/
theorem claim_C2_visibility_lifecycle (model : MjModel)
    (height width max_geom : Nat) (odname odroot : String) (li : Int)
    (cn : Option (List String)) (nm : String) (f1 : FrameInput)
    (pre2 post : List FrameInput) (g1 : GeomInstance)
    (hf1 : f1.geoms.filter (fun x => decide (getGeomName model x = nm)) = [g1])
    (ha1 : 0 < g1.rgba.a)
    (hpre : ∀ f ∈ pre2, ∃ g, f.geoms.filter
        (fun x => decide (getGeomName model x = nm)) = [g] ∧ 0 < g.rgba.a)
    (hpost : ∀ f ∈ post, ∀ g ∈ f.geoms, getGeomName model g ≠ nm)
    (ft : String) (hft : ft ∈ allowedFiletypes) :
    ∃ t p r,
      runUpdates (f1 :: pre2 ++ post)
        (initState model height width max_geom odname odroot li cn) = some t ∧
      save_scene t ft = some p ∧
      getRef p.1.geom_refs nm = some r ∧
      r.visibilitySamples =
        (List.range (pre2.length + 1)).map (fun j => ((j : Nat), true)) ++
          [(pre2.length + 1, false)] ∧
      r.last_visible_frame = pre2.length := by
  have hWF0 := WF_initState model height width max_geom odname odroot li cn
  obtain ⟨s1, h1, hWF1, hupd1, -, hm1, -, -, -, -, -, -, -, -, -, -⟩ :=
    update_scene_spec f1
      (initState model height width max_geom odname odroot li cn) hWF0
  have hf1b : f1.geoms.filter
      (fun x => decide (getGeomName
        (initState model height width max_geom odname odroot li cn).model x =
          nm)) = [g1] := hf1
  have hrec1 := update_scene_filter_one hWF0 h1 nm g1 hf1b
  have hrec1b : getRef s1.geom_refs nm =
      some (frameUpdate g1 0
        (newGeomRef (initState model height width max_geom odname odroot li cn)
          g1)) := hrec1
  have hu1 : s1.updates = 1 := by
    rw [hupd1]
    rfl
  have hm1b : s1.model = model := hm1
  have hpre1 : ∀ f ∈ pre2, ∃ g, f.geoms.filter
      (fun x => decide (getGeomName s1.model x = nm)) = [g] ∧
      0 < g.rgba.a := by
    rw [hm1b]
    exact hpre
  obtain ⟨t2, r2, ht2, hWF2, hm2, hupd2, href2, hvis2, hlvf2⟩ :=
    runUpdates_visible_track nm pre2 s1
      (frameUpdate g1 0
        (newGeomRef (initState model height width max_geom odname odroot li cn)
          g1))
      hWF1 hpre1 hrec1b
  have hpost2 : ∀ f ∈ post, ∀ g ∈ f.geoms, getGeomName t2.model g ≠ nm := by
    rw [hm2, hm1b]
    exact hpost
  obtain ⟨t, ht, hWFt, hmt, hreft⟩ := runUpdates_absent_track nm post t2 hWF2
    hpost2
  have hrunAll : runUpdates (f1 :: pre2 ++ post)
      (initState model height width max_geom odname odroot li cn) = some t := by
    have hx : runUpdates (pre2 ++ post) s1 = some t :=
      runUpdates_append pre2 post ht2 ht
    simp only [runUpdates, h1]
    exact hx
  have hreq : getRef t.geom_refs nm = some r2 := hreft.trans href2
  have hv1 : (frameUpdate g1 0
      (newGeomRef (initState model height width max_geom odname odroot li cn)
        g1)).visibilitySamples = [(0, true)] := by
    rw [frameUpdate_vis, decide_eq_true ha1, newGeomRef_visibilitySamples]
    simp
  have hl1 : (frameUpdate g1 0
      (newGeomRef (initState model height width max_geom odname odroot li cn)
        g1)).last_visible_frame = 0 :=
    frameUpdate_lvf_vis g1 0 _ ha1
  have hlvf2b : r2.last_visible_frame = pre2.length := by
    rw [hlvf2, hl1, hu1]
    by_cases hz : pre2.length = 0
    · simp [hz]
    · rw [if_neg hz]
      omega
  refine ⟨t, _, r2.updVisibility false (r2.last_visible_frame + 1), hrunAll,
    save_scene_of_mem hft, ?_, ?_, ?_⟩
  · show getRef
      (t.geom_refs.map
        (fun p => (p.1, p.2.updVisibility false (p.2.last_visible_frame + 1))))
      nm = some (r2.updVisibility false (r2.last_visible_frame + 1))
    rw [getRef_map_vis, hreq]
    rfl
  · rw [updVisibility_vis, hvis2, hv1, hu1, hlvf2b, List.singleton_append,
      range_map_base]
  · show (r2.updVisibility false (r2.last_visible_frame + 1)).last_visible_frame
      = pre2.length
    exact hlvf2b

/-- A snapshot with no geometry at all. -/
def demoFrameEmpty : FrameInput :=
  { geoms := [], lights := [], camPose := fun _ => demoPose }

theorem claim_C2_visibility_lifecycle_witness :
    ∃ t p r,
      runUpdates (demoFrame :: [] ++ [demoFrameEmpty])
        (initState demoModel 8 10 1000 "pkg" "." 10000 (some ["cam"])) =
        some t ∧
      save_scene t "usd" = some p ∧
      getRef p.1.geom_refs "None_id7_geom" = some r ∧
      r.visibilitySamples =
        (List.range 1).map (fun j => ((j : Nat), true)) ++ [(1, false)] ∧
      r.last_visible_frame = 0 :=
  claim_C2_visibility_lifecycle demoModel 8 10 1000 "pkg" "." 10000
    (some ["cam"]) "None_id7_geom" demoFrame [] [demoFrameEmpty] demoGeom
    (by decide) (by decide) (by simp) (by decide) "usd" (by decide)

end MujocoUsd
